import Mathlib

/-!
Shallow embedding of `src/index.tsx` of hookform-controller-proxy.

The module is a thin adapter between react-hook-form and caller-supplied
render functions.  Its runtime content is:

* a dynamic proxy (`createControllerProxy` / `createControllerProxyImpl`)
  that accumulates a list of property-access steps and, when called with a
  render function, produces a `FieldController` React element whose `name`
  is the dot-joined path (with a trailing `$` optional indicator stripped)
  and whose `required` flag reflects the absence of that indicator;
* the `FieldController` component, which delegates to the react-hook-form
  `Controller` with `rules = { required }` and normalizes the field props
  handed to the render function (value setter instead of event handler,
  flattened error string);
* the `flattenErrors` helper that flattens a possibly nested field-error
  structure into one string.

JavaScript strings are modelled as Lean `String`; the JS builtins used by
the source (`endsWith`, `slice(0, -1)`, `Array.prototype.join`) are given
explicit Lean models below.  JS `undefined` becomes `Option.none`.
-/

namespace HookformControllerProxy

/-- Model of the JS call `s.endsWith(t)`: `t` is a suffix of `s`. -/
def jsEndsWith (s t : String) : Bool :=
  t.data.isSuffixOf s.data

/-- Model of the JS call `s.slice(0, -1)`: `s` without its last character. -/
def jsSliceDropLast (s : String) : String :=
  ⟨s.data.dropLast⟩

/-- Model of the JS call `parts.join(".")` (`String.intercalate` has exactly
the semantics of `Array.prototype.join` on a list of strings). -/
def jsJoinDot (parts : List String) : String :=
  String.intercalate "." parts

/-- Source: `const optionalIndicator = "$" as const;`. -/
def optionalIndicator : String := "$"

/-- Source: `const emptyPath: ReadonlyArray<string> = Object.freeze([]);`. -/
def emptyPath : List String := []

/-- Model of the react-hook-form field-error value as seen by `flattenErrors`:
the argument is either JS `undefined` (`undef`), an object carrying a
`message` property (a leaf `FieldError`, whose message may itself be
`undefined`), or any other object, observed through `Object.values` as the
list of its enumerable property values. -/
inductive ErrTree : Type where
  | undef : ErrTree
  | leaf (message : Option String) : ErrTree
  | node (children : List ErrTree) : ErrTree

/-- Source: `flattenErrors` (src/index.tsx lines 133-141).
`if (!errors) return;` is the `undef` case; `if ("message" in errors)`
returns the (possibly undefined) message; otherwise
`Object.values(errors).map(flattenErrors).join("\n")` — and JS `join`
renders an `undefined` element as the empty string, hence `Option.getD ""`
on each recursive result. -/
def flattenErrors : ErrTree → Option String
  | .undef => none
  | .leaf m => m
  | .node cs =>
      some (String.intercalate "\n" (cs.attach.map (fun c =>
        (flattenErrors c.val).getD "")))
decreasing_by
  have h := List.sizeOf_lt_of_mem c.property
  simp only [ErrTree.node.sizeOf_spec]
  omega

/-- Model of the react-hook-form `UseFormReturn`: the adapter only ever reads
its `control` property, so the rest of the object is irrelevant and the
control object itself is opaque (type parameter `C`). -/
structure UseFormReturn (C : Type u) where
  control : C

/-- The `target` object of the synthetic event built by `FieldController`:
`{ value: newValue, name }`. -/
structure ChangeTarget (V : Type u) where
  value : V
  name : String

/-- The synthetic event `{ type: "change", target: { value: newValue, name } }`
that `FieldController` hands to the react-hook-form field `onChange`. -/
structure ChangeEvent (V : Type u) where
  type : String
  target : ChangeTarget V

/-- The `field` destructured from the react-hook-form `Controller` render
argument: `{ value, onChange, onBlur }`.  `onChange` consumes the synthetic
event; its result type `E` and the opaque blur handler type `B` are
parameters. -/
structure ControllerFieldArg (V E B : Type u) where
  value : V
  onChange : ChangeEvent V → E
  onBlur : B

/-- The `fieldState` destructured from the react-hook-form `Controller` render
argument: `{ invalid, error }` (`error` may be `undefined`, which is
`ErrTree.undef`). -/
structure FieldStateArg where
  invalid : Bool
  error : ErrTree

/-- The props object literal that `FieldController` passes to the
caller-supplied render function:
`{ value, name, onBlur, onChange, error, required }`. -/
structure RenderProps (V E B : Type u) where
  value : V
  name : String
  onBlur : B
  onChange : V → E
  error : Option String
  required : Option Bool

/-- The keys, in source order, of the props object literal passed to the
render function (src/index.tsx lines 80-86). -/
def renderPropsKeys : List String :=
  ["value", "name", "onBlur", "onChange", "error", "required"]

/-- The `rules` object the adapter passes to the react-hook-form `Controller`:
the literal `{ required }`.  `required` is `none` when the (optional)
`required` prop of `FieldController` was left undefined. -/
structure Rules where
  required : Option Bool
deriving DecidableEq

/-- The `rules` object carrying no validation rule at all (every rule key
absent / undefined, which react-hook-form ignores). -/
def noRules : Rules := ⟨none⟩

/-- Model of the react-hook-form `Controller` element created by
`FieldController`: the adapter supplies `control`, `name`, `rules` and the
render closure (a function of the `field` and `fieldState` render
arguments).  `R` is the result type of the caller render function. -/
structure ControllerCall (C V E B R : Type u) where
  control : C
  name : String
  rules : Rules
  render : ControllerFieldArg V E B → FieldStateArg → R

/-- Source: the `FieldController` component (src/index.tsx lines 57-90).
It returns a `Controller` element with `control={form.control}`,
`name={name}`, `rules={{ required }}`, and a render closure that
normalizes the field props before invoking the `render` of the caller:
`onChange` becomes a value setter wrapping the value in a synthetic change
event, and the field state is resolved to `error` (flattened when invalid,
undefined otherwise). -/
def FieldController (form : UseFormReturn C) (name : String)
    (render : RenderProps V E B → R) (required : Option Bool) :
    ControllerCall C V E B R where
  control := form.control
  name := name
  rules := ⟨required⟩
  render := fun field fieldState =>
    render
      { value := field.value
        name := name
        onBlur := field.onBlur
        onChange := fun newValue =>
          field.onChange ⟨"change", ⟨newValue, name⟩⟩
        error := if fieldState.invalid then flattenErrors fieldState.error
                 else none
        required := required }

/-- The React element `<FieldController form name render required />`
produced by the apply trap of the proxy; rendering it calls `FieldController`
with these props (see `renderElement`). -/
structure FieldControllerElement (C V E B R : Type u) where
  form : UseFormReturn C
  name : String
  render : RenderProps V E B → R
  required : Bool

/-- Rendering the element produced by the proxy: React invokes the
`FieldController` component function on the props of the element (the proxy
always supplies a concrete boolean `required={!isOptional}`). -/
def renderElement (e : FieldControllerElement C V E B R) :
    ControllerCall C V E B R :=
  FieldController e.form e.name e.render (some e.required)

/-- The state captured by one proxy produced by `createControllerProxyImpl`:
the closed-over `form` and the accumulated access path. -/
structure ControllerProxy (C : Type u) where
  form : UseFormReturn C
  path : List String

/-- Source: the `get` trap of `createControllerProxyImpl` (src/index.tsx
lines 29-31): property access returns a fresh proxy over the extended path
`[...path, String(step)]`. -/
def proxyGet (p : ControllerProxy C) (step : String) : ControllerProxy C :=
  ⟨p.form, p.path ++ [step]⟩

/-- Source: the `apply` trap of `createControllerProxyImpl` (src/index.tsx
lines 32-46): calling the proxy with a render function joins the path with
`"."`, detects and strips a trailing optional indicator, and returns the
`FieldController` element. -/
def proxyApply (p : ControllerProxy C) (render : RenderProps V E B → R) :
    FieldControllerElement C V E B R :=
  let pathAsString := jsJoinDot p.path
  let isOptional := jsEndsWith pathAsString optionalIndicator
  let name := if isOptional then jsSliceDropLast pathAsString
              else pathAsString
  ⟨p.form, name, render, !isOptional⟩

/-- Source: `createControllerProxy` (src/index.tsx lines 18-22): the root
proxy over the frozen empty path. -/
def createControllerProxy (form : UseFormReturn C) : ControllerProxy C :=
  ⟨form, emptyPath⟩

/-- A finite sequence of property accesses `k1, ..., kn` performed on a
proxy: each access goes through the `get` trap. -/
def accessPath (p : ControllerProxy C) (steps : List String) :
    ControllerProxy C :=
  steps.foldl proxyGet p

/-! ### Helper lemmas -/

/-- Unfolding lemma for the recursive case of `flattenErrors`, with the
`attach` used for termination removed. -/
theorem flattenErrors_node (cs : List ErrTree) :
    flattenErrors (.node cs)
      = some (String.intercalate "\n"
          (cs.map fun c => (flattenErrors c).getD "")) := by
  rw [flattenErrors]
  rw [List.attach_map_val cs (fun c => (flattenErrors c).getD "")]

/-- The accumulated path of a chain of property accesses is the original
path followed by the access steps. -/
theorem accessPath_mk (f : UseFormReturn C) (ps ks : List String) :
    accessPath (⟨f, ps⟩ : ControllerProxy C) ks = ⟨f, ps ++ ks⟩ := by
  induction ks generalizing ps with
  | nil => simp [accessPath]
  | cons k ks ih =>
      show accessPath ⟨f, ps ++ [k]⟩ ks = _
      rw [ih]
      simp

/-- A string ends with the optional indicator exactly when its character
list ends with the dollar character. -/
theorem jsEndsWith_optionalIndicator_iff (s : String) :
    jsEndsWith s optionalIndicator = true ↔ ∃ pre, s.data = pre ++ [Char.ofNat 36] := by
  have hd : optionalIndicator.data = [Char.ofNat 36] := by decide
  rw [jsEndsWith, hd, List.isSuffixOf_iff_suffix]
  constructor
  · rintro ⟨t, ht⟩
    exact ⟨t, ht.symm⟩
  · rintro ⟨pre, hp⟩
    exact ⟨pre, hp.symm⟩

/-- Stripping the final character of a string that ends with the optional
indicator and re-appending the indicator restores the string: exactly one
trailing character is removed. -/
theorem jsSliceDropLast_append_indicator (s : String)
    (h : jsEndsWith s optionalIndicator = true) :
    jsSliceDropLast s ++ optionalIndicator = s := by
  obtain ⟨pre, hp⟩ := (jsEndsWith_optionalIndicator_iff s).1 h
  apply String.ext
  have h1 : (jsSliceDropLast s ++ optionalIndicator).data
      = s.data.dropLast ++ [Char.ofNat 36] := by
    have hd : optionalIndicator.data = [Char.ofNat 36] := by decide
    show (jsSliceDropLast s).data ++ optionalIndicator.data = _
    rw [hd]
    rfl
  rw [h1, hp, List.dropLast_concat]

/-- Evaluation of the apply trap after a chain of accesses from the root
proxy, in terms of the joined access steps. -/
theorem proxyApply_accessPath (form : UseFormReturn C) (ks : List String)
    (render : RenderProps V E B → R) :
    proxyApply (accessPath (createControllerProxy form) ks) render
      = ⟨form,
         if jsEndsWith (jsJoinDot ks) optionalIndicator then
           jsSliceDropLast (jsJoinDot ks)
         else jsJoinDot ks,
         render,
         !(jsEndsWith (jsJoinDot ks) optionalIndicator)⟩ := by
  have hp : accessPath (createControllerProxy form) ks = ⟨form, ks⟩ := by
    rw [createControllerProxy, emptyPath, accessPath_mk]
    simp
  rw [hp, proxyApply]

/-- C1: for every finite sequence of property accesses performed on the
proxy returned by `createControllerProxy form`, calling the resulting proxy
with a render function returns a `FieldController` element whose `form`
prop is the original form object, whose `render` prop is the given render
function, and whose `name` prop is the accessed keys joined with "." with a
single trailing optional indicator removed when present (unchanged
otherwise). -/
theorem proxy_call_yields_field_controller_element
    (C V E B R : Type) (form : UseFormReturn C) (ks : List String)
    (render : RenderProps V E B → R) :
    (proxyApply (accessPath (createControllerProxy form) ks) render).form
        = form ∧
    (proxyApply (accessPath (createControllerProxy form) ks) render).render
        = render ∧
    (jsEndsWith (jsJoinDot ks) optionalIndicator = true →
      (proxyApply (accessPath (createControllerProxy form) ks) render).name
          ++ optionalIndicator = jsJoinDot ks) ∧
    (jsEndsWith (jsJoinDot ks) optionalIndicator = false →
      (proxyApply (accessPath (createControllerProxy form) ks) render).name
          = jsJoinDot ks) := by
  rw [proxyApply_accessPath]
  refine ⟨rfl, rfl, fun h => ?_, fun h => ?_⟩
  · simp only [h, if_pos]
    exact jsSliceDropLast_append_indicator _ h
  · simp [h]

/-- Witness for C1 at the concrete access sequence `foo`, `bar$`. -/
theorem proxy_call_yields_field_controller_element_witness :
    jsEndsWith (jsJoinDot ["foo", "bar$"]) optionalIndicator = true ∧
    (proxyApply
        (accessPath (createControllerProxy (⟨()⟩ : UseFormReturn Unit))
          ["foo", "bar$"])
        (fun p : RenderProps Unit Unit Unit => p)).name
      ++ optionalIndicator = jsJoinDot ["foo", "bar$"] :=
  ⟨by decide,
   (proxy_call_yields_field_controller_element Unit Unit Unit Unit
      (RenderProps Unit Unit Unit) ⟨()⟩ ["foo", "bar$"]
      (fun p => p)).2.2.1 (by decide)⟩

/-- C2: for every access path, the `required` flag delivered to the render
function is `true` exactly when the dot-joined path does not end with the
optional indicator; when it does end with the indicator, exactly that one
trailing character is stripped to form the field name handed to the wrapped
form library, and the delivered `required` flag is `false`.  (The props are
observed through the identity render function; `fieldController_render_eq`
below shows every render function receives this same props object.) -/
theorem required_flag_iff_no_optional_indicator
    (C V E B : Type) (form : UseFormReturn C) (ks : List String)
    (field : ControllerFieldArg V E B) (st : FieldStateArg) :
    (((renderElement
          (proxyApply (accessPath (createControllerProxy form) ks)
            (fun p : RenderProps V E B => p))).render field st).required
        = some true
      ↔ jsEndsWith (jsJoinDot ks) optionalIndicator = false) ∧
    (jsEndsWith (jsJoinDot ks) optionalIndicator = true →
      (renderElement
          (proxyApply (accessPath (createControllerProxy form) ks)
            (fun p : RenderProps V E B => p))).name
          ++ optionalIndicator = jsJoinDot ks ∧
      ((renderElement
          (proxyApply (accessPath (createControllerProxy form) ks)
            (fun p : RenderProps V E B => p))).render field st).required
        = some false) := by
  rw [proxyApply_accessPath]
  constructor
  · cases h : jsEndsWith (jsJoinDot ks) optionalIndicator <;>
      simp [renderElement, FieldController, h]
  · intro h
    constructor
    · show (if jsEndsWith (jsJoinDot ks) optionalIndicator then
          jsSliceDropLast (jsJoinDot ks) else jsJoinDot ks)
          ++ optionalIndicator = jsJoinDot ks
      rw [if_pos h]
      exact jsSliceDropLast_append_indicator _ h
    · simp [renderElement, FieldController, h]

/-- Witness for C2 at the concrete access sequence `a$`. -/
theorem required_flag_iff_no_optional_indicator_witness :
    jsEndsWith (jsJoinDot ["a$"]) optionalIndicator = true ∧
    ((renderElement
        (proxyApply
          (accessPath (createControllerProxy (⟨()⟩ : UseFormReturn Unit))
            ["a$"])
          (fun p : RenderProps Unit Unit Unit => p))).name
        ++ optionalIndicator = jsJoinDot ["a$"] ∧
      ((renderElement
        (proxyApply
          (accessPath (createControllerProxy (⟨()⟩ : UseFormReturn Unit))
            ["a$"])
          (fun p : RenderProps Unit Unit Unit => p))).render
        ⟨(), fun _ => (), ()⟩ ⟨false, .undef⟩).required = some false) :=
  ⟨by decide,
   (required_flag_iff_no_optional_indicator Unit Unit Unit Unit ⟨()⟩ ["a$"]
      ⟨(), fun _ => (), ()⟩ ⟨false, .undef⟩).2 (by decide)⟩

/-- The props object handed to an arbitrary render function is the one
observed through the identity render function: the component builds one
props record and passes it to whatever render function it was given. -/
theorem fieldController_render_eq (form : UseFormReturn C) (name : String)
    (render : RenderProps V E B → R) (req : Option Bool)
    (field : ControllerFieldArg V E B) (st : FieldStateArg) :
    (FieldController form name render req).render field st
      = render ((FieldController form name (fun p => p) req).render field st) :=
  rfl

/-- C5: the change handler is normalized to a value setter.  For every field
and every value `v`, the `onChange` delivered to the render function applied
to `v` is exactly one invocation of the wrapped field `onChange` of the form
library, at the synthetic event `{ type := "change", target := { value := v,
name } }`; instantiating the field `onChange` with the one-call trace
function shows the call happens exactly once. -/
theorem onchange_normalized_to_value_setter
    (C V B : Type) (form : UseFormReturn C) (name : String)
    (req : Option Bool) (st : FieldStateArg) :
    (∀ (E : Type) (field : ControllerFieldArg V E B) (v : V),
      ((FieldController form name (fun p : RenderProps V E B => p) req).render
          field st).onChange v
        = field.onChange ⟨"change", ⟨v, name⟩⟩) ∧
    (∀ (value : V) (onBlur : B) (v : V),
      ((FieldController form name
          (fun p : RenderProps V (List (ChangeEvent V)) B => p) req).render
          ⟨value, fun e => [e], onBlur⟩ st).onChange v
        = [⟨"change", ⟨v, name⟩⟩]) :=
  ⟨fun _ _ _ => rfl, fun _ _ _ => rfl⟩

/-- C4: the error prop delivered to the render function is the flattened
error exactly when the field state is invalid, and absent otherwise; in
particular `flattenErrors` of an absent error structure is absent. -/
theorem error_prop_defaults_absent
    (C V E B : Type) (form : UseFormReturn C) (name : String)
    (req : Option Bool) (field : ControllerFieldArg V E B)
    (st : FieldStateArg) :
    ((FieldController form name (fun p : RenderProps V E B => p) req).render
        field st).error
      = (if st.invalid then flattenErrors st.error else none) ∧
    flattenErrors .undef = none ∧
    (st.invalid = false →
      ((FieldController form name (fun p : RenderProps V E B => p) req).render
          field st).error = none) ∧
    (st.invalid = true →
      ((FieldController form name (fun p : RenderProps V E B => p) req).render
          field st).error = flattenErrors st.error) := by
  refine ⟨rfl, ?_, fun h => ?_, fun h => ?_⟩
  · rw [flattenErrors]
  · simp [FieldController, h]
  · simp [FieldController, h]

/-- Witness for C4 at a valid field state with an absent error. -/
theorem error_prop_defaults_absent_witness :
    (false : Bool) = false ∧
    ((FieldController (⟨()⟩ : UseFormReturn Unit) "a"
        (fun p : RenderProps Unit Unit Unit => p) (some true)).render
        ⟨(), fun _ => (), ()⟩ ⟨false, .undef⟩).error = none :=
  ⟨rfl,
   (error_prop_defaults_absent Unit Unit Unit Unit ⟨()⟩ "a" (some true)
      ⟨(), fun _ => (), ()⟩ ⟨false, .undef⟩).2.2.1 rfl⟩

/-- C3: `flattenErrors` flattens every possibly nested validation-error
structure into a single string: an absent input yields `none`, an input
carrying a `message` property yields that message, and any other object
yields the recursively flattened values of its enumerable properties
joined with newline characters. -/
theorem flattenErrors_flattens_nested_errors :
    flattenErrors .undef = none ∧
    (∀ m : Option String, flattenErrors (.leaf m) = m) ∧
    (∀ cs : List ErrTree,
      flattenErrors (.node cs)
        = some (String.intercalate "\n"
            (cs.map fun c => (flattenErrors c).getD ""))) := by
  refine ⟨by rw [flattenErrors], fun m => by rw [flattenErrors],
    flattenErrors_node⟩

/-- C10: an object with a `message` key is a leaf even when the message is
undefined (the undefined message is returned as-is), and in a nested node
the newline join renders such an undefined child result as an empty
segment, so the branch contributes an empty line rather than being
omitted. -/
theorem flattenErrors_undefined_message_leaf (pre post : List ErrTree) :
    flattenErrors (.leaf none) = none ∧
    flattenErrors (.node (pre ++ .leaf none :: post))
      = some (String.intercalate "\n"
          ((pre.map fun c => (flattenErrors c).getD "")
            ++ "" :: (post.map fun c => (flattenErrors c).getD ""))) ∧
    flattenErrors (.node [.leaf (some "a"), .leaf none, .leaf (some "b")])
      = some "a\n\nb" := by
  refine ⟨by rw [flattenErrors], ?_, ?_⟩
  · rw [flattenErrors_node]
    simp only [List.map_append, List.map_cons]
    rw [flattenErrors]
    rfl
  · rw [flattenErrors_node]
    simp only [List.map_cons, List.map_nil]
    rw [show flattenErrors (.leaf (some "a")) = some "a" from by
          rw [flattenErrors],
        show flattenErrors (.leaf (none : Option String)) = none from by
          rw [flattenErrors],
        show flattenErrors (.leaf (some "b")) = some "b" from by
          rw [flattenErrors]]
    rfl

/-- C9: the get trap is pure: it returns a fresh proxy whose path is the
old path extended by the accessed key, the base proxy and the frozen empty
root path are unchanged, and two accesses of different keys from the same
proxy yield independent (distinct) paths, so any proxy can be reused. -/
theorem proxy_get_trap_pure (C : Type) (p : ControllerProxy C)
    (k k1 k2 : String) :
    proxyGet p k = ⟨p.form, p.path ++ [k]⟩ ∧
    (proxyGet p k).path ≠ p.path ∧
    emptyPath = ([] : List String) ∧
    (k1 ≠ k2 → (proxyGet p k1).path ≠ (proxyGet p k2).path) := by
  refine ⟨rfl, fun h => ?_, rfl, fun hne h => ?_⟩
  · have := congrArg List.length h
    simp [proxyGet] at this
  · simp [proxyGet] at h
    exact hne h

/-- Witness for C9: accessing the distinct keys `a` and `b` from the same
proxy gives distinct paths. -/
theorem proxy_get_trap_pure_witness :
    ("a" : String) ≠ "b" ∧
    (proxyGet (⟨⟨()⟩, ["x"]⟩ : ControllerProxy Unit) "a").path
      ≠ (proxyGet (⟨⟨()⟩, ["x"]⟩ : ControllerProxy Unit) "b").path :=
  ⟨by decide,
   (proxy_get_trap_pure Unit ⟨⟨()⟩, ["x"]⟩ "x" "a" "b").2.2.2 (by decide)⟩

/-- Counterexample to C6: at the concrete field `a` the rules object the
adapter passes to the wrapped Controller is `{ required := true }`, which
is not the rules object carrying no validation rule. -/
theorem adapter_passes_required_rule_counterexample :
    (renderElement
        (proxyApply
          (accessPath (createControllerProxy (⟨()⟩ : UseFormReturn Unit))
            ["a"])
          (fun p : RenderProps Unit Unit Unit => p))).rules ≠ noRules := by
  decide

/-- C6 (amended): the adapter implements no validation logic itself; the
only validation rule it hands to the wrapped form library is the `required`
flag (derived, for proxy-built controllers, from the optional indicator of
the path), and the rules object contains nothing beyond that flag. -/
theorem adapter_rules_exactly_required_flag
    (C V E B R : Type) (form : UseFormReturn C) (name : String)
    (render : RenderProps V E B → R) (req : Option Bool)
    (p : ControllerProxy C) (render2 : RenderProps V E B → R) :
    (FieldController form name render req).rules = ⟨req⟩ ∧
    (renderElement (proxyApply p render2)).rules
      = ⟨some (!(jsEndsWith (jsJoinDot p.path) optionalIndicator))⟩ :=
  ⟨rfl, rfl⟩

/-- Modelled from the claim, for the refinement comparison of C7: the
hypothetical apply trap with the optional-indicator handling (src/index.tsx
lines 33-35) erased, so the name is the joined path unchanged and the field
is treated as required. -/
def proxyApplySpecErased (p : ControllerProxy C)
    (render : RenderProps V E B → R) : FieldControllerElement C V E B R :=
  ⟨p.form, jsJoinDot p.path, render, true⟩

/-- Counterexample to C7: at the path `a$` the proxy produces the field
name `a`, while the variant with the optional-indicator handling erased
produces `a$` — the name the proxy produces does depend on runtime
optional-indicator computation. -/
theorem optional_indicator_runtime_counterexample :
    (proxyApply (⟨⟨()⟩, ["a$"]⟩ : ControllerProxy Unit)
        (fun p : RenderProps Unit Unit Unit => p)).name
      ≠ (proxyApplySpecErased (⟨⟨()⟩, ["a$"]⟩ : ControllerProxy Unit)
        (fun p : RenderProps Unit Unit Unit => p)).name := by
  decide

/-- C7 (amended): the type-level utilities have no runtime counterpart in
the embedding, but the optional indicator itself is handled at runtime: the
proxy agrees with the indicator-erased variant exactly on paths whose
joined string does not end with the indicator, and on paths that do end
with it the produced `required` flag and name differ from the erased
variant. -/
theorem optional_indicator_handling_is_runtime
    (C V E B R : Type) (p : ControllerProxy C)
    (render : RenderProps V E B → R) :
    (jsEndsWith (jsJoinDot p.path) optionalIndicator = false →
      proxyApply p render = proxyApplySpecErased p render) ∧
    (jsEndsWith (jsJoinDot p.path) optionalIndicator = true →
      (proxyApply p render).required = false ∧
      (proxyApplySpecErased p render).required = true ∧
      (proxyApply p render).name ++ optionalIndicator
        = (proxyApplySpecErased p render).name) := by
  refine ⟨fun h => ?_, fun h => ⟨by simp [proxyApply, h], rfl, ?_⟩⟩
  · simp [proxyApply, proxyApplySpecErased, h]
  · show (if jsEndsWith (jsJoinDot p.path) optionalIndicator then
        jsSliceDropLast (jsJoinDot p.path) else jsJoinDot p.path)
        ++ optionalIndicator = jsJoinDot p.path
    rw [if_pos h]
    exact jsSliceDropLast_append_indicator _ h

/-- Witness for the amended C7 at the indicator-free path `a`. -/
theorem optional_indicator_handling_is_runtime_witness :
    jsEndsWith (jsJoinDot ["a"]) optionalIndicator = false ∧
    proxyApply (⟨⟨()⟩, ["a"]⟩ : ControllerProxy Unit)
        (fun p : RenderProps Unit Unit Unit => p)
      = proxyApplySpecErased (⟨⟨()⟩, ["a"]⟩ : ControllerProxy Unit)
        (fun p : RenderProps Unit Unit Unit => p) :=
  ⟨by decide,
   (optional_indicator_handling_is_runtime Unit Unit Unit Unit
      (RenderProps Unit Unit Unit) ⟨⟨()⟩, ["a"]⟩ (fun p => p)).1 (by decide)⟩

/-- Modelled from the spec: the prop keys the spec enumerates for the
normalized field props ("value, change handler, blur handler, error
string, required flag"), under the key names the source `FieldProps` /
`BaseFieldProps` types give those props. -/
def specNormalizedPropKeys : List String :=
  ["value", "onChange", "onBlur", "error", "required"]

/-- Counterexample to C8: the props object literal handed to the render
function also carries the `name` key, which is not among the five props the
spec enumerates. -/
theorem render_props_members_counterexample :
    "name" ∈ renderPropsKeys ∧ "name" ∉ specNormalizedPropKeys := by
  decide

/-- C8 (amended): the props object passed to the render function consists
exactly of the five normalized props the spec names plus the field name:
every key of the literal is one of the five or `name`, and conversely all
of them occur. -/
theorem render_props_members_amended :
    ∀ k : String,
      k ∈ renderPropsKeys ↔ (k ∈ specNormalizedPropKeys ∨ k = "name") := by
  intro k
  simp only [renderPropsKeys, specNormalizedPropKeys, List.mem_cons,
    List.not_mem_nil, or_false]
  tauto

end HookformControllerProxy
